import Mathlib

/-!
# 2025-run-tracker: calendar heatmap and progress bar

A shallow embedding of `src/server.js` (the `/api/data` handler) and of
`src/public/js/heatmap.js` (`createHeatmap`, `createProgressChart`), together with the
parts of the JavaScript `Date` object and of the d3 library those functions call.

Conventions of the embedding.

* A finite JavaScript number is the rational (`ℚ`) it denotes; the non-finite values
  `NaN`, `Infinity` and `-Infinity` are separate constructors of `JsNum`.
* The arithmetic of the colour scale (d3 `scaleQuantile`, `quantileSorted`) is IEEE 754
  binary64 arithmetic: every operation is followed by `fl64`, rounding to the nearest
  double, ties to even.  The arithmetic of the progress chart is exact.
* A `Date` time value is an `Int` number of milliseconds since the epoch (UTC).
* The viewer's time zone is a fixed offset `tz`, in minutes east of UTC.
* The d3 calendar intervals (`timeDay`, `timeWeek`, `timeYear`) work on local calendar
  fields only, so a `Date` at local midnight is represented by its local day number
  (an `Int`: days since 1970-01-01 in the local calendar).
-/

namespace RunTracker

/-! ## ECMAScript date arithmetic (ECMA-262, "Time Values and Time Range") -/

/-- The constant `1000 * 60 * 60 * 24` of `createProgressChart` (ECMA-262 `msPerDay`). -/
def msPerDay : Int := 1000 * 60 * 60 * 24

/-- ECMA-262 `msPerMinute`. -/
def msPerMinute : Int := 60000

/-- ECMA-262 `DaysInYear(y)`. -/
def daysInYear (y : Int) : Int :=
  if y % 4 ≠ 0 then 365
  else if y % 100 ≠ 0 then 366
  else if y % 400 ≠ 0 then 365
  else 366

/-- ECMA-262 `InLeapYear`, as a predicate on the year. -/
def isLeapYear (y : Int) : Bool := decide (daysInYear y = 366)

/-- ECMA-262 `DayFromYear(y)`: the day number of January 1 of year `y`. -/
def dayFromYear (y : Int) : Int :=
  365 * (y - 1970) + (y - 1969) / 4 - (y - 1901) / 100 + (y - 1601) / 400

/-- ECMA-262 `YearFromTime`, on day numbers: the largest `y` with `dayFromYear y ≤ d`.
Computed from the mean Gregorian year (146097 days per 400 years) and one correction
step; `yearFromDay_correct` proves the characterisation. -/
def yearFromDay (d : Int) : Int :=
  let y := 1970 + (d * 400) / 146097
  if d < dayFromYear y then y - 1
  else if dayFromYear (y + 1) ≤ d then y + 1
  else y

/-- ECMA-262 `DayWithinYear`. -/
def dayWithinYear (d : Int) : Int := d - dayFromYear (yearFromDay d)

/-- Number of days of the year before month `m` (0-based), `leap` being 1 in a leap year. -/
def daysBeforeMonth (m : Int) (leap : Int) : Int :=
  if m ≤ 0 then 0
  else if m = 1 then 31
  else if m = 2 then 59 + leap
  else if m = 3 then 90 + leap
  else if m = 4 then 120 + leap
  else if m = 5 then 151 + leap
  else if m = 6 then 181 + leap
  else if m = 7 then 212 + leap
  else if m = 8 then 243 + leap
  else if m = 9 then 273 + leap
  else if m = 10 then 304 + leap
  else 334 + leap

/-- Leap-day count of the year: 1 in a leap year, else 0. -/
def leapDays (y : Int) : Int := if isLeapYear y then 1 else 0

/-- ECMA-262 `MonthFromTime` (0 = January .. 11 = December), on day numbers. -/
def monthFromDay (d : Int) : Int :=
  let w := dayWithinYear d
  let l := leapDays (yearFromDay d)
  if w < 31 then 0
  else if w < 59 + l then 1
  else if w < 90 + l then 2
  else if w < 120 + l then 3
  else if w < 151 + l then 4
  else if w < 181 + l then 5
  else if w < 212 + l then 6
  else if w < 243 + l then 7
  else if w < 273 + l then 8
  else if w < 304 + l then 9
  else if w < 334 + l then 10
  else 11

/-- ECMA-262 `DateFromTime` (day of the month, 1-based), on day numbers. -/
def dateFromDay (d : Int) : Int :=
  dayWithinYear d - daysBeforeMonth (monthFromDay d) (leapDays (yearFromDay d)) + 1

/-- ECMA-262 `WeekDay` (0 = Sunday .. 6 = Saturday): `Date.prototype.getDay`. -/
def weekDay (d : Int) : Int := (d + 4) % 7

/-- ECMA-262 `MakeDay(year, month, date)`: months outside 0..11 carry into the year. -/
def makeDay (year month date : Int) : Int :=
  let ym := year + month / 12
  let mn := month % 12
  dayFromYear ym + daysBeforeMonth mn (leapDays ym) + date - 1

/-- ECMA-262 `MakeFullYear`: the `Date(year, month, ...)` constructor reads a year in
0..99 as 1900 + year. -/
def makeFullYear (year : Int) : Int :=
  if 0 ≤ year ∧ year ≤ 99 then 1900 + year else year

/-- The constructor `new Date(year, month, date)`: local midnight of that calendar day, as a local day. -/
def newDateLocal (year month date : Int) : Int :=
  makeDay (makeFullYear year) month date

/-- ECMA-262 `Day(t)` of the local time `t + tz` of a time value: the local calendar day
on which the instant `t` falls for a viewer `tz` minutes east of UTC. -/
def localDay (tz : Int) (t : Int) : Int := (t + tz * msPerMinute) / msPerDay

/-- Time value of local midnight of a local day, for a viewer `tz` minutes east of UTC. -/
def localMidnight (tz : Int) (d : Int) : Int := d * msPerDay - tz * msPerMinute

/-! ## Number formatting -/

/-- Decimal digits of `n`, left-padded with zeros to `width` characters. -/
def padNat (n width : Nat) : String :=
  let ds := Nat.toDigits 10 n
  String.mk (List.replicate (width - ds.length) '0' ++ ds)

/-- d3-time-format `pad(value, "0", width)`: sign, then the zero-padded magnitude. -/
def pad (value : Int) (width : Nat) : String :=
  (if value < 0 then "-" else "") ++ padNat value.natAbs width

/-- d3 `timeFormat("%Y-%m-%d")` applied to a date on local day `d`:
`pad(getFullYear() % 10000, 4)`, `pad(getMonth() + 1, 2)`, `pad(getDate(), 2)`. -/
def timeFormatYmd (d : Int) : String :=
  pad (Int.tmod (yearFromDay d) 10000) 4 ++ "-" ++ pad (monthFromDay d + 1) 2 ++ "-"
    ++ pad (dateFromDay d) 2

/-- The expression `toISOString().split('T')[0]` for a valid time value: the UTC date,
with a four-digit year in 0..9999 and a signed six-digit year otherwise. -/
def isoDatePart (t : Int) : String :=
  let d : Int := t / msPerDay
  let y := yearFromDay d
  (if 0 ≤ y ∧ y ≤ 9999 then padNat y.natAbs 4
   else (if y < 0 then "-" else "+") ++ padNat y.natAbs 6)
    ++ "-" ++ padNat (monthFromDay d + 1).natAbs 2 ++ "-" ++ padNat (dateFromDay d).natAbs 2

/-! ## d3-time intervals, on local days -/

/-- The `do ... while (previous < start && start < stop)` loop of d3 `interval.range`
for `timeDay`: push the current day as `previous`, step `start` to the next day, continue
while it moved forward and is before `stop`. -/
def timeDaysLoop (start stop : Int) : List Int :=
  let previous := start
  let next := start + 1
  previous :: (if _h : previous < next ∧ next < stop then timeDaysLoop next stop else [])
termination_by (stop - start).toNat
decreasing_by omega

/-- d3 `timeDays(start, stop)` for dates at local midnight: every day from `start`
inclusive to `stop` exclusive; empty unless `start < stop`. -/
def timeDays (start stop : Int) : List Int :=
  if start < stop then timeDaysLoop start stop else []

/-- d3 `timeYear(d)`: floor to January 1 of the date's year (`setMonth(0, 1)`). -/
def timeYear (d : Int) : Int := makeDay (yearFromDay d) 0 1

/-- d3 `timeWeek` (= `timeSunday`) floor: `setDate(getDate() - (getDay() + 7 - 0) % 7)`. -/
def timeWeekFloor (d : Int) : Int := d - (weekDay d + 7 - 0) % 7

/-- d3 `timeWeek.count(start, end)`: both dates floored to their week start, then
`Math.floor` of the elapsed local time divided by one week. -/
def timeWeekCount (start stop : Int) : Int :=
  (timeWeekFloor stop - timeWeekFloor start) / 7

/-! ## JavaScript values -/

/-- A JavaScript number: `NaN`, the two infinities, or a finite value. -/
inductive JsNum where
  | nan : JsNum
  | posInf : JsNum
  | negInf : JsNum
  | fin (q : ℚ) : JsNum
deriving DecidableEq

/-- The comparison `n > 0` on JavaScript numbers. -/
def JsNum.isPositive : JsNum → Bool
  | .fin q => decide (0 < q)
  | .posInf => true
  | _ => false

/-- A JavaScript value as the handler can receive one in `response.data`, plus
`undefined` for the result of reading a missing property. -/
inductive JsVal where
  | undefined : JsVal
  | null : JsVal
  | bool (b : Bool) : JsVal
  | num (n : JsNum) : JsVal
  | str (s : String) : JsVal
  | arr (items : List JsVal) : JsVal
  | obj (fields : List (String × JsVal)) : JsVal

/-- The exceptions the row processing can raise. -/
inductive JsError where
  | typeError : JsError
  | rangeError : JsError
deriving DecidableEq

/-- The test `Array.isArray(v)`. -/
def JsVal.isArray : JsVal → Bool
  | .arr _ => true
  | _ => false

/-- The test `typeof v === 'string'`, returning the string. -/
def JsVal.asString : JsVal → Option String
  | .str s => some s
  | _ => none

/-- ECMA-262 `ToBoolean`. -/
def JsVal.truthy : JsVal → Bool
  | .undefined => false
  | .null => false
  | .bool b => b
  | .num .nan => false
  | .num (.fin q) => decide (q ≠ 0)
  | .num _ => true
  | .str s => decide (s ≠ "")
  | .arr _ => true
  | .obj _ => true

/-- Property read `v.key` / `v[key]` for the two keys the handler reads (`Date` and
`Total Mileage`): a `TypeError` on `null` and `undefined`, the own property of an object,
and `undefined` on every other value (no primitive wrapper or array defines these keys). -/
def JsVal.getProp (v : JsVal) (key : String) : Except JsError JsVal :=
  match v with
  | .undefined => .error .typeError
  | .null => .error .typeError
  | .obj fields => .ok ((fields.lookup key).getD .undefined)
  | _ => .ok .undefined

/-- The built-in functions of the JavaScript runtime whose full behaviour is outside the
repository; the handler and the heatmap are parametric in them.
`parseFloat` is the global `parseFloat`; `newDate v` is the time value of `new Date(v)`
(`none` for an Invalid Date); `jsonParse` is `JSON.parse` (`none` when it throws). -/
structure Builtins where
  parseFloat : JsVal → JsNum
  newDate : JsVal → Option Int
  jsonParse : String → Option JsVal

/-! ## `src/server.js`: the `/api/data` handler -/

/-- One element of the array the handler sends: `{ date, value }`. -/
structure Record where
  date : String
  value : JsNum
deriving DecidableEq

/-- Body of an HTTP response of the handler: `{ error: msg }` or the processed array. -/
inductive ResBody where
  | error (msg : String) : ResBody
  | data (rows : List Record) : ResBody
deriving DecidableEq

/-- An HTTP response: status code and JSON body. -/
structure Response where
  status : Nat
  body : ResBody
deriving DecidableEq

/-- The expression `x || 0` on numbers: `NaN` and zero are falsy. -/
def orZero : JsNum → JsNum
  | .nan => .fin 0
  | n => n

/-- The expression `date.toISOString().split('T')[0]`: a `RangeError` on an Invalid Date. -/
def toISODate : Option Int → Except JsError String
  | none => .error .rangeError
  | some t => .ok (isoDatePart t)

/-- The body of the `try` block of the `rawData.map` callback (server.js lines 33-49).
`none` is the callback's `return null`. -/
def processRowTry (B : Builtins) (row : JsVal) : Except JsError (Option Record) := do
  let dateStr ← row.getProp "Date"
  let mileage := orZero (B.parseFloat (← row.getProp "Total Mileage"))
  if !dateStr.truthy || mileage == .fin 0 then
    return none
  let date := B.newDate dateStr
  let formattedDate ← toISODate date
  return some { date := formattedDate, value := mileage }

/-- The `rawData.map` callback with its `catch`: an exception yields `null`. -/
def processRow (B : Builtins) (row : JsVal) : Option Record :=
  match processRowTry B row with
  | .ok r => r
  | .error _ => none

/-- The `processedData` of server.js: `rawData.map(...).filter(item => item !== null)`. -/
def processedData (B : Builtins) (rawData : List JsVal) : List Record :=
  ((rawData.map (processRow B)).filter (fun item => item.isSome)).filterMap id

/-- The optional decoding step (server.js lines 16-23): a string body is replaced by its
JSON parse when that succeeds and is kept as it is when `JSON.parse` throws. -/
def decodeBody (B : Builtins) (data : JsVal) : JsVal :=
  match data with
  | .str s =>
    match B.jsonParse s with
    | some v => v
    | none => data
  | _ => data

/-- The `/api/data` handler.  `upstream` is the outcome of `axios.get`: its error message
when the request fails, else `response.data`. -/
def apiData (B : Builtins) (upstream : Except String JsVal) : Response :=
  match upstream with
  | .error message => { status := 500, body := .error ("Failed to fetch data: " ++ message) }
  | .ok data =>
    match decodeBody B data with
    | .arr rawData => { status := 200, body := .data (processedData B rawData) }
    | _ => { status := 500, body := .error "Invalid response format" }

/-! ## IEEE 754 binary64 rounding -/

/-- Nearest integer to a rational, a tie going to the even neighbour. -/
def roundHalfEven (t : ℚ) : Int :=
  let f : Int := ⌊t⌋
  let r : ℚ := t - (f : ℚ)
  if r < 1 / 2 then f else if 1 / 2 < r then f + 1 else if f % 2 = 0 then f else f + 1

/-- Rounding of a positive rational to the nearest binary64 value: the significand has
53 bits (unit `2 ^ (⌊log₂ q⌋ - 52)`), the unit never goes below `2 ^ -1074` (subnormals).
Overflow to `Infinity` is not modelled. -/
def fl64Pos (q : ℚ) : ℚ :=
  let e : Int := max (Int.log 2 q - 52) (-1074)
  (roundHalfEven (q / (2 : ℚ) ^ e) : ℚ) * (2 : ℚ) ^ e

/-- Rounding to the nearest binary64 value, ties to even: the result of a JavaScript
arithmetic operation whose exact result is `q`. -/
def fl64 (q : ℚ) : ℚ :=
  if 0 < q then fl64Pos q else if q < 0 then -fl64Pos (-q) else 0

/-! ## d3-array and d3-scale -/

/-- A record as the page receives it from `/api/data`: `value` is `none` for JSON `null`. -/
structure Datum where
  date : String
  value : Option ℚ
deriving DecidableEq

/-- JSON transport of a processed record (`res.json` then `response.json()`): a finite
number travels as it is, a non-finite one is serialised as `null`. -/
def Record.toDatum (r : Record) : Datum :=
  { date := r.date
    value :=
      match r.value with
      | .fin q => some q
      | _ => none }

/-- d3 `max(values)`: the largest value, `null` entries skipped; `none` (undefined) when
there is no value. -/
def d3max (values : List (Option ℚ)) : Option ℚ :=
  values.foldl
    (fun max value =>
      match value, max with
      | none, _ => max
      | some v, none => some v
      | some v, some m => if m < v then some v else some m)
    none

/-- The expression `m || 1`: `undefined` and zero are falsy. -/
def orOne : Option ℚ → ℚ
  | none => 1
  | some m => if m = 0 then 1 else m

/-- d3 `quantileSorted(values, p)` on a sorted array: with `i = (n - 1) * p` and
`i0 = Math.floor(i)` the result is `value0 + (value1 - value0) * (i - i0)`, each operation
in binary64; `none` (undefined) on an empty array. -/
def quantileSorted (values : List ℚ) (p : ℚ) : Option ℚ :=
  let n := values.length
  if n = 0 then none
  else if p ≤ 0 ∨ n < 2 then values.get? 0
  else if p ≥ 1 then values.get? (n - 1)
  else
    let i : ℚ := fl64 (((n : ℚ) - 1) * p)
    let i0 : Int := ⌊i⌋
    match values.get? i0.toNat, values.get? (i0.toNat + 1) with
    | some value0, some value1 =>
      some (fl64 (value0 + fl64 (fl64 (value1 - value0) * fl64 (i - (i0 : ℚ)))))
    | _, _ => none

/-- The test `ascending(a[mid], x) <= 0` of d3 `bisectRight`; false on `undefined`. -/
def ascendingLe (a : Option (Option ℚ)) (x : ℚ) : Bool :=
  match a with
  | some (some t) => decide (t ≤ x)
  | _ => false

/-- The `do ... while (lo < hi)` loop of d3 `bisectRight`. -/
def bisectLoop (a : List (Option ℚ)) (x : ℚ) (lo hi : Nat) : Nat :=
  let mid := (lo + hi) / 2
  if ascendingLe (a.get? mid) x then
    if _h : mid + 1 < hi then bisectLoop a x (mid + 1) hi else mid + 1
  else
    if _h : lo < mid then bisectLoop a x lo mid else lo
termination_by hi - lo
decreasing_by all_goals omega

/-- d3 `bisectRight(a, x)` (= `bisect`) over the whole array. -/
def bisectRight (a : List (Option ℚ)) (x : ℚ) : Nat :=
  if 0 < a.length then bisectLoop a x 0 a.length else 0

/-- State of a d3 `scaleQuantile()` after `.domain(...)` and `.range(...)`. -/
structure QuantileScale where
  domain : List ℚ
  range : List String
  thresholds : List (Option ℚ)

/-- d3 `scaleQuantile().domain(d).range(r)`: the domain is sorted ascending and
`rescale` sets `thresholds[i - 1] = quantileSorted(domain, i / n)` for `0 < i < n` (the
quotient `i / n` is a binary64 division),
`n = max(1, range.length)`. -/
def scaleQuantile (domain : List ℚ) (range : List String) : QuantileScale :=
  let sorted := domain.insertionSort (fun a b => a ≤ b)
  let n := max 1 range.length
  { domain := sorted
    range := range
    thresholds :=
      (List.range (n - 1)).map
        (fun j : Nat => quantileSorted sorted (fl64 (((j : ℚ) + 1) / (n : ℚ)))) }

/-- Index of the range entry a number is mapped to: `bisect(thresholds, x)`. -/
def QuantileScale.index (s : QuantileScale) (x : ℚ) : Nat := bisectRight s.thresholds x

/-- Calling the scale: `x == null ? unknown : range[bisect(thresholds, x)]`. -/
def QuantileScale.apply (s : QuantileScale) (x : Option ℚ) : Option String :=
  match x with
  | none => none
  | some v => s.range.get? (s.index v)

/-- Insertion of one value into the map built by d3 `group`: pushed onto the group of
its key when the key is present, else a new group is appended. -/
def groupInsert (groups : List (String × List Datum)) (key : String) (value : Datum) :
    List (String × List Datum) :=
  match groups with
  | [] => [(key, [value])]
  | (k, g) :: rest =>
    if k = key then (k, g ++ [value]) :: rest else (k, g) :: groupInsert rest key value

/-- d3 `group(values, key)`: a map from key to the array of the values with that key, in
the order of `values`. -/
def d3group (key : Datum → String) (values : List Datum) : List (String × List Datum) :=
  values.foldl (fun groups value => groupInsert groups (key value) value) []

/-! ## `src/public/js/heatmap.js` -/

/-- The constant `cellSize` of `createHeatmap`. -/
def cellSize : Int := 17

/-- The five colours of the scale's range, lightest first. -/
def colorRange : List String := ["#e5f5e0", "#a1d99b", "#31a354", "#004225", "#00260f"]

/-- The `colorScale` of `createHeatmap`:
`d3.scaleQuantile().domain([0, d3.max(data, d => d.value) || 1]).range([...])`. -/
def colorScale (data : List Datum) : QuantileScale :=
  scaleQuantile [0, orOne (d3max (data.map (fun d => d.value)))] colorRange

/-- The string d3 `timeFormat("%Y-%m-%d")` produces for an Invalid Date. -/
def invalidDateKey : String := "0NaN-NaN-NaN"

/-- The key function of `dateValues`: `d3.timeFormat("%Y-%m-%d")(new Date(d.date))`, the
local calendar date of the parsed instant for a viewer `tz` minutes east of UTC. -/
def dateKey (B : Builtins) (tz : Int) (d : Datum) : String :=
  match B.newDate (.str d.date) with
  | some t => timeFormatYmd (localDay tz t)
  | none => invalidDateKey

/-- The `dateValues` of `createHeatmap`: `d3.group(data, key)`. -/
def dateValues (B : Builtins) (tz : Int) (data : List Datum) : List (String × List Datum) :=
  d3group (dateKey B tz) data

/-- A `rect` of the heatmap: position, bound datum (the formatted date), the record
behind its fill and tooltip (`dateValues.get(d)[0]`, for a cell that passes the filter
`dateValues.has(d)`), and the fill colour. -/
structure Cell where
  x : Int
  y : Int
  datum : String
  record : Option Datum
  fill : Option String
deriving DecidableEq

/-- The record used for a cell: `dateValues.get(d)[0]` when `dateValues.has(d)`. -/
def cellRecord (groups : List (String × List Datum)) (d : String) : Option Datum :=
  match groups.lookup d with
  | some g => g.head?
  | none => none

/-- The `rect` created for the day `d`. -/
def dayCell (scale : QuantileScale) (groups : List (String × List Datum)) (d : Int) : Cell :=
  let datum := timeFormatYmd d
  let record := cellRecord groups datum
  { x := timeWeekCount (timeYear d) d * cellSize
    y := weekDay d * cellSize
    datum := datum
    record := record
    fill := record.bind (fun r => scale.apply r.value) }

/-- The days the heatmap draws:
`d3.timeDays(new Date(year, 0, 1), new Date(year + 1, 0, 1))`. -/
def heatmapDays (year : Int) : List Int :=
  timeDays (newDateLocal year 0 1) (newDateLocal (year + 1) 0 1)

/-- The day cells of `createHeatmap(data)` for the global `year` and a viewer `tz`
minutes east of UTC. -/
def createHeatmap (B : Builtins) (tz : Int) (year : Int) (data : List Datum) : List Cell :=
  (heatmapDays year).map (dayCell (colorScale data) (dateValues B tz data))

/-- The method `Number.prototype.toFixed(2)`, as the value of the decimal it prints: the nearest
multiple of 1/100, a tie going away from zero. -/
def toFixed2 (x : ℚ) : ℚ :=
  if x < 0 then -((⌊(-x) * 100 + 1 / 2⌋ : Int) : ℚ) / 100
  else ((⌊x * 100 + 1 / 2⌋ : Int) : ℚ) / 100

/-- The numbers `createProgressChart` computes. -/
structure Progress where
  totalMiles : ℚ
  elapsedDays : Int
  targetMiles : ℚ
  barWidth : ℚ
  markerX : ℚ
  totalText : ℚ
  targetText : ℚ

/-- The computation of `createProgressChart(data)`: `today` is the time value of
`new Date()`, `startDate` that of `new Date(year, 0, 1)` for a viewer `tz` minutes east
of UTC. -/
def createProgressChart (tz : Int) (year : Int) (today : Int) (data : List Datum) : Progress :=
  let totalMiles : ℚ := data.foldl (fun sum d => sum + d.value.getD 0) 0
  let startDate : Int := localMidnight tz (newDateLocal year 0 1)
  let elapsedDays : Int := ⌊((today - startDate : Int) : ℚ) / (msPerDay : ℚ)⌋
  let targetMiles : ℚ := ((elapsedDays : ℚ) / 365) * 1000
  let width : ℚ := 960 - 20 - 20
  { totalMiles := totalMiles
    elapsedDays := elapsedDays
    targetMiles := targetMiles
    barWidth := (totalMiles / 1000) * width
    markerX := 20 + (targetMiles / 1000) * width
    totalText := toFixed2 totalMiles
    targetText := toFixed2 targetMiles }

/-! ## A reference instance of the built-ins

Used to evaluate the handler and the heatmap on concrete inputs.  It covers numbers,
decimal literals and the ISO 8601 forms `YYYY-MM-DD` and `YYYY-MM-DDTHH:mm:ss[.sss]Z`
(the year also in the expanded form `+YYYYYY` or `-YYYYYY`);
the general theorems below hold for every instance of `Builtins`. -/

/-- Value of a string of decimal digits. -/
def digitsValue (ds : List Char) : Nat :=
  ds.foldl (fun n c => 10 * n + (c.toNat - 48)) 0

/-- Sign, mantissa digits, number of fraction digits and decimal exponent of the longest
decimal literal that starts a string (after leading blanks); `none` when there is none. -/
def scanDecimal (cs : List Char) : Option (Bool × Nat × Nat × Int) :=
  let cs := cs.dropWhile Char.isWhitespace
  let signed : Bool × List Char :=
    match cs with
    | '-' :: r => (true, r)
    | '+' :: r => (false, r)
    | _ => (false, cs)
  let ip := signed.2.takeWhile Char.isDigit
  let afterInt := signed.2.dropWhile Char.isDigit
  let fp :=
    match afterInt with
    | '.' :: r => r.takeWhile Char.isDigit
    | _ => []
  let afterFrac :=
    match afterInt with
    | '.' :: r => r.dropWhile Char.isDigit
    | _ => afterInt
  let ex : Int :=
    match afterFrac with
    | 'e' :: '-' :: r | 'E' :: '-' :: r => -(digitsValue (r.takeWhile Char.isDigit) : Int)
    | 'e' :: '+' :: r | 'E' :: '+' :: r => (digitsValue (r.takeWhile Char.isDigit) : Int)
    | 'e' :: r | 'E' :: r => (digitsValue (r.takeWhile Char.isDigit) : Int)
    | _ => 0
  if ip.isEmpty && fp.isEmpty then none
  else some (signed.1, digitsValue (ip ++ fp), fp.length, ex)

/-- Reference `parseFloat`: a number is returned as it is, a string is read as the
decimal literal it starts with (`Infinity` included), anything else gives `NaN`. -/
def refParseFloat : JsVal → JsNum
  | .num n => n
  | .str s =>
    match scanDecimal s.toList with
    | some (neg, mant, fl, ex) =>
      let e : Int := ex - (fl : Int)
      let m : ℚ := if neg then -(mant : ℚ) else (mant : ℚ)
      .fin (if e < 0 then m / ((10 ^ e.natAbs : Nat) : ℚ) else m * ((10 ^ e.natAbs : Nat) : ℚ))
    | none =>
      let cs := s.toList.dropWhile Char.isWhitespace
      if cs.take 8 = "Infinity".toList ∨ cs.take 9 = "+Infinity".toList then .posInf
      else if cs.take 9 = "-Infinity".toList then .negInf
      else .nan
  | _ => .nan

/-- Two-digit field of a date string. -/
def twoDigits (a b : Char) : Option Int :=
  if a.isDigit ∧ b.isDigit then some (digitsValue [a, b]) else none

/-- Calendar date at the start of a string, `YYYY-MM-DD` or with an expanded year
`+YYYYYY-MM-DD` / `-YYYYYY-MM-DD`: the UTC day number and the rest of the string. -/
def scanIsoDate (cs : List Char) : Option (Int × List Char) :=
  match cs with
  | '+' :: y1 :: y2 :: y3 :: y4 :: y5 :: y6 :: '-' :: m1 :: m2 :: '-' :: d1 :: d2 :: rest =>
    if y1.isDigit ∧ y2.isDigit ∧ y3.isDigit ∧ y4.isDigit ∧ y5.isDigit ∧ y6.isDigit then
      match twoDigits m1 m2, twoDigits d1 d2 with
      | some m, some d =>
        if 1 ≤ m ∧ m ≤ 12 ∧ 1 ≤ d ∧ d ≤ 31 then
          some (makeDay (digitsValue [y1, y2, y3, y4, y5, y6]) (m - 1) d, rest)
        else none
      | _, _ => none
    else none
  | '-' :: y1 :: y2 :: y3 :: y4 :: y5 :: y6 :: '-' :: m1 :: m2 :: '-' :: d1 :: d2 :: rest =>
    if y1.isDigit ∧ y2.isDigit ∧ y3.isDigit ∧ y4.isDigit ∧ y5.isDigit ∧ y6.isDigit ∧
        digitsValue [y1, y2, y3, y4, y5, y6] ≠ 0 then
      match twoDigits m1 m2, twoDigits d1 d2 with
      | some m, some d =>
        if 1 ≤ m ∧ m ≤ 12 ∧ 1 ≤ d ∧ d ≤ 31 then
          some (makeDay (-(digitsValue [y1, y2, y3, y4, y5, y6] : Int)) (m - 1) d, rest)
        else none
      | _, _ => none
    else none
  | y1 :: y2 :: y3 :: y4 :: '-' :: m1 :: m2 :: '-' :: d1 :: d2 :: rest =>
    if y1.isDigit ∧ y2.isDigit ∧ y3.isDigit ∧ y4.isDigit then
      match twoDigits m1 m2, twoDigits d1 d2 with
      | some m, some d =>
        if 1 ≤ m ∧ m ≤ 12 ∧ 1 ≤ d ∧ d ≤ 31 then
          some (makeDay (digitsValue [y1, y2, y3, y4]) (m - 1) d, rest)
        else none
      | _, _ => none
    else none
  | _ => none

/-- Time of day `THH:mm:ss[.sss]Z` (UTC) in milliseconds. -/
def scanIsoTime (cs : List Char) : Option Int :=
  match cs with
  | 'T' :: h1 :: h2 :: ':' :: n1 :: n2 :: ':' :: s1 :: s2 :: rest =>
    match twoDigits h1 h2, twoDigits n1 n2, twoDigits s1 s2 with
    | some h, some n, some sec =>
      if h ≤ 23 ∧ n ≤ 59 ∧ sec ≤ 59 then
        match rest with
        | ['Z'] => some (h * 3600000 + n * 60000 + sec * 1000)
        | ['.', f1, f2, f3, 'Z'] =>
          if f1.isDigit ∧ f2.isDigit ∧ f3.isDigit then
            some (h * 3600000 + n * 60000 + sec * 1000 + digitsValue [f1, f2, f3])
          else none
        | _ => none
      else none
    | _, _, _ => none
  | _ => none

/-- Reference `new Date(v)`: a finite number is truncated to an integral time value, a
string is read as `YYYY-MM-DD` (UTC midnight) or `YYYY-MM-DDTHH:mm:ss[.sss]Z`, the year
possibly expanded; anything else is an Invalid Date. -/
def refNewDate : JsVal → Option Int
  | .num (.fin q) => if |q| ≤ 8640000000000000 then some (if q < 0 then -⌊-q⌋ else ⌊q⌋) else none
  | .str s =>
    match scanIsoDate s.toList with
    | some (day, []) => some (day * msPerDay)
    | some (day, rest) => (scanIsoTime rest).map (fun ms => day * msPerDay + ms)
    | none => none
  | _ => none

/-- Reference `JSON.parse`, for the three literal texts `null`, `true` and `false` and
the empty array; every other text is rejected. -/
def refJsonParse (s : String) : Option JsVal :=
  if s = "null" then some .null
  else if s = "true" then some (.bool true)
  else if s = "false" then some (.bool false)
  else if s = "[]" then some (.arr [])
  else none

/-- The reference instance of the built-ins. -/
def refBuiltins : Builtins :=
  { parseFloat := refParseFloat
    newDate := refNewDate
    jsonParse := refJsonParse }

/-! ## Quantities the specification speaks of -/

/-- Column index of a cell: its `x` coordinate divided by `cellSize`. -/
def Cell.column (c : Cell) : Int := c.x / cellSize

/-- Row index of a cell: its `y` coordinate divided by `cellSize`. -/
def Cell.row (c : Cell) : Int := c.y / cellSize

/-- Number of week starts (Sundays) strictly between day `a` and day `b`. -/
def weekStartsBetween (a b : Int) : Nat :=
  ((List.range (b - a - 1).toNat).filter (fun i : Nat => decide (weekDay (a + 1 + i) = 0))).length

/-- Number of week starts (Sundays) after day `a` and up to and including day `b`. -/
def weekStartsUpTo (a b : Int) : Nat :=
  ((List.range (b - a).toNat).filter (fun i : Nat => decide (weekDay (a + 1 + i) = 0))).length

/-- Field of an upstream row as the specification reads it: the property of an object
row, absent (`undefined`) on any other row. -/
def rowField (row : JsVal) (key : String) : JsVal :=
  match row with
  | .obj fields => (fields.lookup key).getD .undefined
  | _ => .undefined

/-- The mileage of a row parses to a non-zero number. -/
def mileageNonZero (B : Builtins) (row : JsVal) : Bool :=
  decide (B.parseFloat (rowField row "Total Mileage") ≠ .nan) &&
    decide (B.parseFloat (rowField row "Total Mileage") ≠ .fin 0)

/-- A row the specification keeps: a non-empty `Date`, a mileage that parses to a
non-zero number, and a date that parses. -/
def goodRow (B : Builtins) (row : JsVal) : Bool :=
  (rowField row "Date").truthy && mileageNonZero B row &&
    (B.newDate (rowField row "Date")).isSome

/-- The record a kept row is converted to: the date part of `toISOString` of its parsed
`Date` (the UTC date, `YYYY-MM-DD` for a year in 0..9999 and with a signed six-digit year
otherwise) and its parsed mileage. -/
def convertRow (B : Builtins) (row : JsVal) : Record :=
  { date := isoDatePart ((B.newDate (rowField row "Date")).getD 0)
    value := B.parseFloat (rowField row "Total Mileage") }

/-- The values of the records that have one. -/
def recordValues (data : List Datum) : List ℚ := data.filterMap (fun d => d.value)

/-- Number of record values the colour scale maps to the colour of index `c`. -/
def bucketSize (data : List Datum) (c : Nat) : Nat :=
  ((recordValues data).filter (fun v => decide ((colorScale data).index v = c))).length

/-- Lower end of the colour scale's sorted two-point domain `[0, max]`. -/
def domainLo (data : List Datum) : ℚ := min 0 (orOne (d3max (data.map (fun d => d.value))))

/-- Upper end of the colour scale's sorted two-point domain `[0, max]`. -/
def domainHi (data : List Datum) : ℚ := max 0 (orOne (d3max (data.map (fun d => d.value))))

/-- The `k`-th cut point of `[domainLo, domainHi]`: the binary64 evaluation of
`lo + (hi - lo) * (k / 5)`, the point `k` fifths of the way through the domain. -/
def cutPoint (data : List Datum) (k : Nat) : ℚ :=
  fl64 (domainLo data + fl64 (fl64 (domainHi data - domainLo data) * fl64 ((k : ℚ) / 5)))

/-- A record list with a 3-mile run and a 0.6-mile run (0.6 as the double JSON gives). -/
def shortAndLong : List Datum :=
  [{ date := "2024-01-01", value := some 3 },
    { date := "2024-01-02", value := some (fl64 (3 / 5)) }]

/-- Shape `YYYY-MM-DD`: four digits, a dash, two digits, a dash, two digits. -/
def isYmdShape (s : String) : Bool :=
  match s.toList with
  | [y1, y2, y3, y4, '-', m1, m2, '-', d1, d2] =>
    y1.isDigit && y2.isDigit && y3.isDigit && y4.isDigit && m1.isDigit && m2.isDigit &&
      d1.isDigit && d2.isDigit
  | _ => false

/-- Five records with the values 1, 1, 1, 1 and 10. -/
def fiveRuns : List Datum :=
  [{ date := "2024-01-01", value := some 1 }, { date := "2024-01-02", value := some 1 },
    { date := "2024-01-03", value := some 1 }, { date := "2024-01-04", value := some 1 },
    { date := "2024-01-05", value := some 10 }]

/-! ## Calendar lemmas -/

theorem dayFromYear_succ (y : Int) : dayFromYear (y + 1) = dayFromYear y + daysInYear y := by
  unfold dayFromYear daysInYear
  split_ifs <;> omega

theorem daysInYear_ge (y : Int) : 365 ≤ daysInYear y ∧ daysInYear y ≤ 366 := by
  unfold daysInYear
  split_ifs <;> omega

theorem dayFromYear_bounds (y : Int) :
    146097 * (y - 1970) - 400 ≤ 400 * dayFromYear y ∧
      400 * dayFromYear y ≤ 146097 * (y - 1970) + 600 := by
  unfold dayFromYear
  omega

/-- The year of a day is the year whose January 1 .. December 31 contain it. -/
theorem yearFromDay_eq (y d : Int) (h1 : dayFromYear y ≤ d) (h2 : d < dayFromYear (y + 1)) :
    yearFromDay d = y := by
  have b1 := dayFromYear_bounds y
  have b2 := dayFromYear_bounds (y + 1)
  have hk : y - 1 ≤ 1970 + (d * 400) / 146097 ∧ 1970 + (d * 400) / 146097 ≤ y + 1 := by omega
  have s0 := dayFromYear_succ (y - 1)
  have s1 := dayFromYear_succ y
  have s2 := dayFromYear_succ (y + 1)
  have e0 : y - 1 + 1 = y := by ring
  rw [e0] at s0
  have p0 := daysInYear_ge (y - 1)
  have p2 := daysInYear_ge (y + 1)
  unfold yearFromDay
  simp only
  generalize 1970 + (d * 400) / 146097 = k at hk ⊢
  obtain ⟨hk1, hk2⟩ := hk
  have hcases : k = y - 1 ∨ k = y ∨ k = y + 1 := by omega
  rcases hcases with rfl | rfl | rfl
  · rw [e0]
    split_ifs <;> omega
  · split_ifs <;> omega
  · split_ifs
    omega

/-- Every day lies in the year `yearFromDay` computes for it. -/
theorem yearFromDay_correct (d : Int) :
    dayFromYear (yearFromDay d) ≤ d ∧ d < dayFromYear (yearFromDay d + 1) := by
  unfold yearFromDay
  simp only
  have hd : 146097 * (1970 + (d * 400) / 146097 - 1970) ≤ d * 400 ∧
      d * 400 < 146097 * (1970 + (d * 400) / 146097 - 1970) + 146097 := by omega
  generalize 1970 + (d * 400) / 146097 = k at hd ⊢
  have b0 := dayFromYear_bounds (k - 1)
  have b3 := dayFromYear_bounds (k + 1 + 1)
  have s0 := dayFromYear_succ (k - 1)
  have s1 := dayFromYear_succ k
  have s2 := dayFromYear_succ (k + 1)
  have p0 := daysInYear_ge (k - 1)
  have p1 := daysInYear_ge k
  have p2 := daysInYear_ge (k + 1)
  have e0 : k - 1 + 1 = k := by ring
  rw [e0] at s0
  split_ifs with c1 c2
  · rw [e0]
    constructor <;> omega
  · constructor <;> omega
  · constructor <;> omega

theorem makeDay_jan1 (y : Int) : makeDay y 0 1 = dayFromYear y := by
  simp [makeDay, daysBeforeMonth]

theorem timeYear_eq (y d : Int) (h1 : dayFromYear y ≤ d) (h2 : d < dayFromYear (y + 1)) :
    timeYear d = dayFromYear y := by
  rw [timeYear, makeDay_jan1, yearFromDay_eq y d h1 h2]

theorem timeDaysLoop_eq (n : Nat) (start stop : Int) (h : stop = start + n + 1) :
    timeDaysLoop start stop = (List.range (n + 1)).map (fun i : Nat => start + (i : Int)) := by
  induction n generalizing start with
  | zero =>
    rw [timeDaysLoop]
    have h1 : ¬ (start + 1 < stop) := by omega
    simp [h1, List.range_succ]
  | succ n ih =>
    rw [timeDaysLoop]
    have hlt : start < start + 1 ∧ start + 1 < stop := by omega
    rw [dif_pos hlt, ih (start + 1) (by omega), List.range_succ_eq_map (n + 1)]
    simp only [List.map_cons, List.map_map, Nat.cast_zero, add_zero]
    congr 1
    apply List.map_congr_left
    intro i _
    simp only [Function.comp, Nat.succ_eq_add_one, Nat.cast_add, Nat.cast_one]
    ring

theorem timeDays_eq (start stop : Int) :
    timeDays start stop =
      (List.range (stop - start).toNat).map (fun i : Nat => start + (i : Int)) := by
  unfold timeDays
  split_ifs with h
  · obtain ⟨n, hn⟩ : ∃ n : Nat, (stop - start).toNat = n + 1 := ⟨(stop - start).toNat - 1, by omega⟩
    rw [hn]
    exact timeDaysLoop_eq n start stop (by omega)
  · have : (stop - start).toNat = 0 := by omega
    simp [this]

theorem heatmapDays_eq (year : Int) (hy : year < -1 ∨ 99 < year) :
    heatmapDays year =
      (List.range (daysInYear year).toNat).map (fun i : Nat => dayFromYear year + (i : Int)) := by
  have h1 : makeFullYear year = year := by
    unfold makeFullYear
    split_ifs with h
    · omega
    · rfl
  have h2 : makeFullYear (year + 1) = year + 1 := by
    unfold makeFullYear
    split_ifs with h
    · omega
    · rfl
  unfold heatmapDays newDateLocal
  rw [h1, h2, makeDay_jan1, makeDay_jan1, timeDays_eq, dayFromYear_succ]
  have e : dayFromYear year + daysInYear year - dayFromYear year = daysInYear year := by ring
  rw [e]

theorem timeWeekFloor_eq (d : Int) : timeWeekFloor d = d - (d + 4) % 7 := by
  unfold timeWeekFloor weekDay
  omega

theorem timeWeekCount_succ (a b : Int) :
    timeWeekCount a (b + 1) = timeWeekCount a b + (if weekDay (b + 1) = 0 then 1 else 0) := by
  unfold timeWeekCount
  rw [timeWeekFloor_eq, timeWeekFloor_eq, timeWeekFloor_eq]
  unfold weekDay
  split_ifs <;> omega

theorem weekStarts_count (a : Int) (n : Nat) :
    ((((List.range n).filter (fun i : Nat => decide (weekDay (a + 1 + i) = 0))).length : Nat) : Int)
      = timeWeekCount a (a + n) := by
  induction n with
  | zero => simp [timeWeekCount]
  | succ n ih =>
    rw [List.range_succ, List.filter_append, List.length_append, Nat.cast_add, ih]
    have e : a + ((n + 1 : Nat) : Int) = a + n + 1 := by push_cast; ring
    rw [e, timeWeekCount_succ]
    have e2 : a + 1 + (n : Int) = a + n + 1 := by ring
    simp only [List.filter_cons, List.filter_nil, e2]
    split_ifs with h1 h2 h3 <;> simp_all

theorem weekStartsUpTo_eq (a b : Int) (h : a ≤ b) :
    (weekStartsUpTo a b : Int) = timeWeekCount a b := by
  unfold weekStartsUpTo
  rw [weekStarts_count]
  congr 1
  omega

theorem dayCell_column (scale : QuantileScale) (groups : List (String × List Datum)) (d : Int) :
    (dayCell scale groups d).column = timeWeekCount (timeYear d) d := by
  simp [Cell.column, dayCell, cellSize]

theorem dayCell_row (scale : QuantileScale) (groups : List (String × List Datum)) (d : Int) :
    (dayCell scale groups d).row = weekDay d := by
  simp [Cell.row, dayCell, cellSize]

/-- C5: for every year outside -1..99 (where the `Date` constructor reads a two-digit
year as 19xx) and every list of records, `createHeatmap` creates 366 day cells in a leap
year and 365 otherwise; the days are the consecutive days from January 1, each day of
the year exactly once. -/
theorem createHeatmap_one_cell_per_day (B : Builtins) (tz year : Int) (data : List Datum)
    (hy : year < -1 ∨ 99 < year) :
    (createHeatmap B tz year data).length = (if isLeapYear year then 366 else 365) ∧
    heatmapDays year = (List.range (createHeatmap B tz year data).length).map
      (fun i : Nat => dayFromYear year + (i : Int)) ∧
    (heatmapDays year).Nodup ∧
    (∀ d : Int, d ∈ heatmapDays year ↔ yearFromDay d = year) ∧
    (createHeatmap B tz year data).map (fun c => c.datum) =
      (heatmapDays year).map timeFormatYmd := by
  have hd := heatmapDays_eq year hy
  have hlen : (createHeatmap B tz year data).length = (daysInYear year).toNat := by
    simp [createHeatmap, hd]
  have hge := daysInYear_ge year
  refine ⟨?_, ?_, ?_, ?_, ?_⟩
  · rw [hlen]
    unfold isLeapYear
    split_ifs with h
    · simp only [decide_eq_true_eq] at h
      omega
    · simp only [decide_eq_true_eq] at h
      omega
  · rw [hlen, hd]
  · rw [hd]
    refine (List.nodup_range _).map ?_
    intro i j hij
    simpa using hij
  · intro d
    have hs := dayFromYear_succ year
    rw [hd]
    simp only [List.mem_map, List.mem_range]
    constructor
    · rintro ⟨i, hi, rfl⟩
      exact yearFromDay_eq year _ (by omega) (by omega)
    · intro hyd
      have hc := yearFromDay_correct d
      rw [hyd] at hc
      exact ⟨(d - dayFromYear year).toNat, by omega, by omega⟩
  · simp [createHeatmap, dayCell]

/-- Witness of C5: the leap year 2024 has 366 day cells. -/
theorem createHeatmap_one_cell_per_day_witness :
    ((2024 : Int) < -1 ∨ (99 : Int) < 2024) ∧
      (createHeatmap refBuiltins 0 2024 []).length = 366 :=
  ⟨by decide, (createHeatmap_one_cell_per_day refBuiltins 0 2024 [] (by decide)).1.trans (by decide)⟩

/-- C9 as stated fails: Sunday 2024-01-07 (day 19729) is in column 1, yet no week
start lies strictly between January 1 and that day. -/
theorem dayCell_column_strictly_between_fails :
    dayFromYear 2024 ≤ 19729 ∧ 19729 < dayFromYear (2024 + 1) ∧
      timeFormatYmd 19729 = "2024-01-07" ∧
      (dayCell (colorScale []) [] 19729).column = 1 ∧
      weekStartsBetween (dayFromYear 2024) 19729 = 0 ∧
      (dayCell (colorScale []) [] 19729).column ≠ weekStartsBetween (dayFromYear 2024) 19729 := by
  rw [dayCell_column]
  decide

/-- C9 (amended): for every year and every day `d` of it, the column index of the
day's cell is the number of week starts (Sundays) after January 1 and up to and
including `d`, and the row index is `getDay()`, the position 0..6 of `d` within its
Sunday-based week. -/
theorem dayCell_column_row (scale : QuantileScale) (groups : List (String × List Datum))
    (year d : Int) (h1 : dayFromYear year ≤ d) (h2 : d < dayFromYear (year + 1)) :
    (dayCell scale groups d).column = weekStartsUpTo (dayFromYear year) d ∧
    (dayCell scale groups d).row = weekDay d ∧
    0 ≤ weekDay d ∧ weekDay d ≤ 6 ∧
    weekDay d = d - timeWeekFloor d ∧ weekDay (timeWeekFloor d) = 0 := by
  rw [dayCell_column, dayCell_row, timeYear_eq year d h1 h2, weekStartsUpTo_eq _ _ h1,
    timeWeekFloor_eq]
  unfold weekDay
  refine ⟨rfl, rfl, ?_, ?_, ?_, ?_⟩ <;> omega

/-- Witness of C9 (amended): Sunday 2024-01-07. -/
theorem dayCell_column_row_witness :
    dayFromYear 2024 ≤ 19729 ∧ 19729 < dayFromYear (2024 + 1) ∧
      (dayCell (colorScale []) [] 19729).column = weekStartsUpTo (dayFromYear 2024) 19729 :=
  ⟨by decide, by decide,
    (dayCell_column_row (colorScale []) [] 2024 19729 (by decide) (by decide)).1⟩

/-- C10 as stated fails: 2028 is a leap year that starts on a Saturday, and its last
day, Sunday 2028-12-31 (day 21549), is in column 53, the 54th column. -/
theorem dayCell_column_le_52_fails :
    dayFromYear 2028 ≤ 21549 ∧ 21549 < dayFromYear (2028 + 1) ∧
      timeFormatYmd 21549 = "2028-12-31" ∧
      (dayCell (colorScale []) [] 21549).column = 53 ∧
      ¬ (dayCell (colorScale []) [] 21549).column ≤ 52 := by
  rw [dayCell_column]
  decide

/-- C10 (amended): for every year and every day `d` of it, the column index of the
day's cell is between 0 and 53, and it is at most 52 unless the year is a leap year
that starts on a Saturday; the grid uses at most 54 week columns. -/
theorem dayCell_column_le_53 (scale : QuantileScale) (groups : List (String × List Datum))
    (year d : Int) (h1 : dayFromYear year ≤ d) (h2 : d < dayFromYear (year + 1)) :
    0 ≤ (dayCell scale groups d).column ∧ (dayCell scale groups d).column ≤ 53 ∧
    (¬ (isLeapYear year = true ∧ weekDay (dayFromYear year) = 6) →
      (dayCell scale groups d).column ≤ 52) := by
  have hs := dayFromYear_succ year
  have hge := daysInYear_ge year
  have hleap : isLeapYear year = true ↔ daysInYear year = 366 := by simp [isLeapYear]
  rw [dayCell_column, timeYear_eq year d h1 h2, hleap]
  unfold timeWeekCount
  rw [timeWeekFloor_eq, timeWeekFloor_eq]
  unfold weekDay
  refine ⟨?_, ?_, ?_⟩
  · omega
  · omega
  · intro hn
    omega

/-- Witness of C10 (amended): the last day of 2028. -/
theorem dayCell_column_le_53_witness :
    dayFromYear 2028 ≤ 21549 ∧ 21549 < dayFromYear (2028 + 1) ∧
      (dayCell (colorScale []) [] 21549).column ≤ 53 :=
  ⟨by decide, by decide,
    (dayCell_column_le_53 (colorScale []) [] 2028 21549 (by decide) (by decide)).2.1⟩

/-! ## The `/api/data` handler -/

theorem processRow_eq (B : Builtins) (row : JsVal) :
    processRow B row = if goodRow B row then some (convertRow B row) else none := by
  have key : ∀ dateStr mv : JsVal,
      (match (if (!dateStr.truthy || orZero (B.parseFloat mv) == .fin 0) = true
          then (Except.ok none : Except JsError (Option Record))
          else (toISODate (B.newDate dateStr)).bind (fun formattedDate =>
            Except.ok (some { date := formattedDate, value := orZero (B.parseFloat mv) }))) with
        | .ok r => r
        | .error _ => none) =
      if (dateStr.truthy && (decide (B.parseFloat mv ≠ .nan) && decide (B.parseFloat mv ≠ .fin 0))
          && (B.newDate dateStr).isSome) = true
        then some { date := isoDatePart ((B.newDate dateStr).getD 0), value := B.parseFloat mv }
        else none := by
    intro dateStr mv
    cases ht : dateStr.truthy
    · simp
    · cases hp : B.parseFloat mv with
      | nan => simp [orZero]
      | posInf =>
        cases hd : B.newDate dateStr <;> simp [orZero, toISODate, Except.bind]
      | negInf =>
        cases hd : B.newDate dateStr <;> simp [orZero, toISODate, Except.bind]
      | fin q =>
        by_cases hq : q = 0
        · subst hq
          simp [orZero]
        · cases hd : B.newDate dateStr <;> simp [orZero, toISODate, Except.bind, hq]
  cases row with
  | undefined => simp [processRow, processRowTry, JsVal.getProp, goodRow, rowField, JsVal.truthy, bind, Except.bind]
  | null => simp [processRow, processRowTry, JsVal.getProp, goodRow, rowField, JsVal.truthy, bind, Except.bind]
  | bool b =>
    simpa [processRow, processRowTry, JsVal.getProp, goodRow, rowField, mileageNonZero, convertRow,
      bind, Except.bind, pure, Except.pure] using key .undefined .undefined
  | num n =>
    simpa [processRow, processRowTry, JsVal.getProp, goodRow, rowField, mileageNonZero, convertRow,
      bind, Except.bind, pure, Except.pure] using key .undefined .undefined
  | str s0 =>
    simpa [processRow, processRowTry, JsVal.getProp, goodRow, rowField, mileageNonZero, convertRow,
      bind, Except.bind, pure, Except.pure] using key .undefined .undefined
  | arr items =>
    simpa [processRow, processRowTry, JsVal.getProp, goodRow, rowField, mileageNonZero, convertRow,
      bind, Except.bind, pure, Except.pure] using key .undefined .undefined
  | obj fields =>
    simpa [processRow, processRowTry, JsVal.getProp, goodRow, rowField, mileageNonZero, convertRow,
      bind, Except.bind, pure, Except.pure] using
      key ((fields.lookup "Date").getD .undefined) ((fields.lookup "Total Mileage").getD .undefined)

theorem processedData_eq (B : Builtins) (rawData : List JsVal) :
    processedData B rawData = (rawData.filter (goodRow B)).map (convertRow B) := by
  unfold processedData
  induction rawData with
  | nil => rfl
  | cons row rest ih =>
    simp only [List.map_cons, List.filter_cons, processRow_eq]
    by_cases hg : goodRow B row = true
    · simp only [hg, if_true, Option.isSome_some, List.filterMap_cons, id, List.map_cons]
      rw [ih]
    · simp only [hg, Option.isSome_none, Bool.false_eq_true, if_false]
      rw [ih]

theorem processedData_append (B : Builtins) (xs ys : List JsVal) :
    processedData B (xs ++ ys) = processedData B xs ++ processedData B ys := by
  simp [processedData_eq]

/-- C2: when the upstream body, after the optional string decoding, is not an array (a
non-string non-array value, a string that parses to a non-array, or a string that does
not parse), the handler answers status 500 with an `error` body, and so neither status
200 nor a data body. -/
theorem apiData_rejects_non_array (B : Builtins) (data : JsVal)
    (h : (data.asString = none ∧ data.isArray = false) ∨
      (∃ s v, data = .str s ∧ B.jsonParse s = some v ∧ v.isArray = false) ∨
      (∃ s, data = .str s ∧ B.jsonParse s = none)) :
    apiData B (.ok data) = { status := 500, body := .error "Invalid response format" } ∧
    (apiData B (.ok data)).status ≠ 200 ∧
    ∀ rows, (apiData B (.ok data)).body ≠ .data rows := by
  have hmain : apiData B (.ok data) =
      { status := 500, body := .error "Invalid response format" } := by
    rcases h with ⟨hs, ha⟩ | ⟨s, v, rfl, hp, ha⟩ | ⟨s, rfl, hp⟩
    · cases data <;> simp_all [apiData, decodeBody, JsVal.asString, JsVal.isArray]
    · cases v <;> simp_all [apiData, decodeBody, JsVal.isArray]
    · simp [apiData, decodeBody, hp]
  rw [hmain]
  exact ⟨rfl, by decide, fun rows => by simp⟩

/-- Witness of C2: the body `"not an array"`, a string that is not JSON. -/
theorem apiData_rejects_non_array_witness :
    refBuiltins.jsonParse "not an array" = none ∧
      apiData refBuiltins (.ok (.str "not an array")) =
        { status := 500, body := .error "Invalid response format" } :=
  ⟨by simp [refBuiltins, refJsonParse],
    (apiData_rejects_non_array refBuiltins (.str "not an array")
      (Or.inr (Or.inr ⟨"not an array", rfl, by simp [refBuiltins, refJsonParse]⟩))).1⟩

/-- C3 as stated fails: a row with mileage -3 is returned with value -3, which is not
greater than 0. -/
theorem processedData_negative_mileage_kept :
    processedData refBuiltins
        [.obj [("Date", .str "2024-03-15"), ("Total Mileage", .num (.fin (-3)))]] =
      [{ date := "2024-03-15", value := .fin (-3) }] ∧
    ¬ (∀ r ∈ processedData refBuiltins
        [.obj [("Date", .str "2024-03-15"), ("Total Mileage", .num (.fin (-3)))]],
      r.value.isPositive = true) := by
  decide

/-- C3 (amended): every record returned by the row processing has a value that is a
number other than zero (never `NaN`, never 0); a row whose mileage parses to zero or does
not parse never appears. -/
theorem processedData_value_nonzero (B : Builtins) (rawData : List JsVal) (r : Record)
    (h : r ∈ processedData B rawData) : r.value ≠ .fin 0 ∧ r.value ≠ .nan := by
  rw [processedData_eq] at h
  simp only [List.mem_map, List.mem_filter] at h
  obtain ⟨row, ⟨_, hg⟩, rfl⟩ := h
  simp only [goodRow, mileageNonZero, Bool.and_eq_true, decide_eq_true_eq] at hg
  exact ⟨hg.1.2.2, hg.1.2.1⟩

/-- Witness of C3 (amended): the row with mileage -3. -/
theorem processedData_value_nonzero_witness :
    ({ date := "2024-03-15", value := .fin (-3) } : Record) ∈ processedData refBuiltins
        [.obj [("Date", .str "2024-03-15"), ("Total Mileage", .num (.fin (-3)))]] ∧
      (JsNum.fin (-3) ≠ .fin 0 ∧ JsNum.fin (-3) ≠ .nan) :=
  ⟨by decide,
    processedData_value_nonzero refBuiltins
      [.obj [("Date", .str "2024-03-15"), ("Total Mileage", .num (.fin (-3)))]]
      { date := "2024-03-15", value := .fin (-3) } (by decide)⟩

/-- The row processing is a total function and returns exactly the rows with a non-empty
`Date`, a mileage that parses to a non-zero number and a parseable date, each converted
by `convertRow`, in their original order; a row that is not of this kind removes only
itself, whatever the rows around it. -/
theorem processedData_keeps_good_rows (B : Builtins) (rawData : List JsVal) :
    processedData B rawData = (rawData.filter (goodRow B)).map (convertRow B) ∧
    (∀ xs ys : List JsVal, rawData = xs ++ ys →
      processedData B rawData = processedData B xs ++ processedData B ys) ∧
    (∀ (xs ys : List JsVal) (bad : JsVal), rawData = xs ++ bad :: ys → goodRow B bad = false →
      processedData B rawData = processedData B (xs ++ ys)) ∧
    (∀ (xs ys : List JsVal) (row : JsVal), rawData = xs ++ row :: ys → goodRow B row = true →
      processedData B rawData = processedData B xs ++ convertRow B row :: processedData B ys) := by
  refine ⟨processedData_eq B rawData, ?_, ?_, ?_⟩
  · rintro xs ys rfl
    exact processedData_append B xs ys
  · rintro xs ys bad rfl hb
    simp [processedData_eq, hb]
  · rintro xs ys row rfl hr
    simp [processedData_eq, hr]

/-- Example of the row processing: a null row, a row without date, a row with a
non-numeric mileage and a row with an unparseable date between two good rows; and a null
row removed on its own. -/
theorem processedData_keeps_good_rows_witness :
    processedData refBuiltins
        [.obj [("Date", .str "2024-03-15T10:00:00Z"), ("Total Mileage", .num (.fin 4))],
          .null,
          .obj [("Total Mileage", .num (.fin 2))],
          .obj [("Date", .str "2024-03-16"), ("Total Mileage", .str "n/a")],
          .obj [("Date", .str "someday"), ("Total Mileage", .num (.fin 2))],
          .obj [("Date", .str "2024-03-17"), ("Total Mileage", .num (.fin 5))]] =
      [{ date := "2024-03-15", value := .fin 4 }, { date := "2024-03-17", value := .fin 5 }] ∧
    goodRow refBuiltins .null = false ∧
    processedData refBuiltins
        ([.obj [("Date", .str "2024-03-15T10:00:00Z"), ("Total Mileage", .num (.fin 4))]] ++
          .null :: [.obj [("Date", .str "2024-03-17"), ("Total Mileage", .num (.fin 5))]]) =
      processedData refBuiltins
        ([.obj [("Date", .str "2024-03-15T10:00:00Z"), ("Total Mileage", .num (.fin 4))]] ++
          [.obj [("Date", .str "2024-03-17"), ("Total Mileage", .num (.fin 5))]]) :=
  ⟨((processedData_keeps_good_rows refBuiltins _).1).trans (by decide), by decide,
    (processedData_keeps_good_rows refBuiltins _).2.2.1 _ _ .null rfl (by decide)⟩

/-- C4 fails on a date beyond the year 9999: the rows are kept, in order, but the date
the handler sends is `toISOString().split('T')[0]` with a signed six-digit year,
`+020245-03-15` and `+010000-01-01`, which is not of the shape `YYYY-MM-DD` that the claim
and the comment above the conversion ("convert to YYYY-MM-DD") promise. -/
theorem processedData_expanded_year_date :
    processedData refBuiltins
        [.obj [("Date", .str "+020245-03-15T07:00:00.000Z"), ("Total Mileage", .num (.fin 4))],
          .obj [("Date", .num (.fin 253402300800000)), ("Total Mileage", .num (.fin 1))]] =
      [{ date := "+020245-03-15", value := .fin 4 },
        { date := "+010000-01-01", value := .fin 1 }] ∧
    isYmdShape "+020245-03-15" = false ∧ isYmdShape "+010000-01-01" = false ∧
    isYmdShape "2024-03-15" = true := by
  decide!

/-! ## The heatmap: grouping by date and cell lookup -/

theorem lookup_groupInsert (groups : List (String × List Datum)) (key k : String) (v : Datum) :
    (groupInsert groups key v).lookup k =
      if key = k then some ((groups.lookup key).getD [] ++ [v]) else groups.lookup k := by
  induction groups with
  | nil =>
    by_cases h : key = k
    · subst h
      simp [groupInsert, List.lookup]
    · have hb : (k == key) = false := beq_eq_false_iff_ne.mpr (fun e => h e.symm)
      simp [groupInsert, List.lookup, h, hb]
  | cons p rest ih =>
    obtain ⟨k0, g0⟩ := p
    unfold groupInsert
    by_cases h0 : k0 = key
    · subst h0
      by_cases h : k0 = k
      · subst h
        simp [List.lookup]
      · have hb : (k == k0) = false := beq_eq_false_iff_ne.mpr (fun e => h e.symm)
        simp [List.lookup, h, hb]
    · have hb0 : (key == k0) = false := beq_eq_false_iff_ne.mpr (fun e => h0 e.symm)
      simp only [h0, if_false, List.lookup_cons, ih]
      by_cases h : key = k
      · subst h
        simp [hb0]
      · by_cases h3 : k = k0
        · subst h3
          simp [h]
        · have hb3 : (k == k0) = false := beq_eq_false_iff_ne.mpr h3
          simp [h, hb3]

theorem d3group_append_one (key : Datum → String) (values : List Datum) (v : Datum) :
    d3group key (values ++ [v]) = groupInsert (d3group key values) (key v) v := by
  simp [d3group, List.foldl_append]

theorem lookup_d3group (key : Datum → String) (values : List Datum) (k : String) :
    (d3group key values).lookup k =
      if values.filter (fun r => decide (key r = k)) = [] then none
      else some (values.filter (fun r => decide (key r = k))) := by
  induction values using List.reverseRecOn generalizing k with
  | nil => simp [d3group]
  | append_singleton vs v ih =>
    rw [d3group_append_one, lookup_groupInsert, List.filter_append]
    by_cases h : key v = k
    · subst h
      rw [ih (key v)]
      by_cases he : vs.filter (fun r => decide (key r = key v)) = []
      · simp [he]
      · simp [he]
    · rw [ih k]
      simp [h]

theorem head?_filter_eq_find? (p : Datum → Bool) (l : List Datum) :
    (l.filter p).head? = l.find? p := by
  induction l with
  | nil => rfl
  | cons a t ih =>
    by_cases h : p a = true
    · simp [List.filter_cons, List.find?_cons, h]
    · simp [List.filter_cons, List.find?_cons, h, ih]

theorem cellRecord_d3group (key : Datum → String) (values : List Datum) (k : String) :
    cellRecord (d3group key values) k = values.find? (fun r => decide (key r = k)) := by
  unfold cellRecord
  rw [lookup_d3group, ← head?_filter_eq_find?]
  by_cases he : values.filter (fun r => decide (key r = k)) = []
  · simp [he]
  · simp [he]

/-- C8: for every list of records and every day, the record behind the day's cell (its
fill colour and tooltip value) is the first record of the list whose date key equals the
day's key; later records with the same key are ignored, and a day without a matching
record has no record and no fill. -/
theorem dayCell_first_record_wins (B : Builtins) (tz : Int) (data : List Datum) (d : Int) :
    (dayCell (colorScale data) (dateValues B tz data) d).record =
      data.find? (fun r => decide (dateKey B tz r = timeFormatYmd d)) ∧
    (dayCell (colorScale data) (dateValues B tz data) d).fill =
      (data.find? (fun r => decide (dateKey B tz r = timeFormatYmd d))).bind
        (fun r => (colorScale data).apply r.value) ∧
    (∀ (before after : List Datum) (r : Datum), data = before ++ r :: after →
      dateKey B tz r = timeFormatYmd d →
      (∀ r0 ∈ before, dateKey B tz r0 ≠ timeFormatYmd d) →
      (dayCell (colorScale data) (dateValues B tz data) d).record = some r) ∧
    ((∀ r ∈ data, dateKey B tz r ≠ timeFormatYmd d) →
      (dayCell (colorScale data) (dateValues B tz data) d).record = none ∧
      (dayCell (colorScale data) (dateValues B tz data) d).fill = none) := by
  have hrec : (dayCell (colorScale data) (dateValues B tz data) d).record =
      data.find? (fun r => decide (dateKey B tz r = timeFormatYmd d)) := by
    simp only [dayCell, dateValues]
    exact cellRecord_d3group _ _ _
  have hfill : (dayCell (colorScale data) (dateValues B tz data) d).fill =
      (dayCell (colorScale data) (dateValues B tz data) d).record.bind
        (fun r => (colorScale data).apply r.value) := rfl
  refine ⟨hrec, by rw [hfill, hrec], ?_, ?_⟩
  · rintro before after r rfl hk hb
    rw [hrec, List.find?_append]
    have h1 : before.find? (fun r => decide (dateKey B tz r = timeFormatYmd d)) = none := by
      rw [List.find?_eq_none]
      intro x hx
      simpa using hb x hx
    simp [h1, List.find?_cons, hk]
  · intro hn
    have h1 : data.find? (fun r => decide (dateKey B tz r = timeFormatYmd d)) = none := by
      rw [List.find?_eq_none]
      intro x hx
      simpa using hn x hx
    rw [hfill, hrec, h1]
    exact ⟨rfl, rfl⟩

/-- Witness of C8: two records for 2024-03-15; the first one, with value 4, is used. -/
theorem dayCell_first_record_wins_witness :
    dateKey refBuiltins 0 { date := "2024-03-15", value := some 4 } = timeFormatYmd 19797 ∧
    (dayCell
        (colorScale [{ date := "2024-03-15", value := some 4 },
          { date := "2024-03-15", value := some 9 }])
        (dateValues refBuiltins 0 [{ date := "2024-03-15", value := some 4 },
          { date := "2024-03-15", value := some 9 }]) 19797).record =
      some { date := "2024-03-15", value := some 4 } :=
  ⟨by decide,
    (dayCell_first_record_wins refBuiltins 0
      [{ date := "2024-03-15", value := some 4 }, { date := "2024-03-15", value := some 9 }]
      19797).2.2.1 [] [{ date := "2024-03-15", value := some 9 }]
      { date := "2024-03-15", value := some 4 } rfl (by decide) (by simp)⟩

/-- C7 fails for a viewer west of UTC: the upstream row with `Date`
`2024-03-15T10:00:00Z` and mileage 4 is sent as `2024-03-15` with value 4; the page
re-parses that date as UTC midnight and formats it in local time, so for a viewer five
hours west of UTC (`tz = -300`) its key is `2024-03-14` and the one cell that receives
the record is the cell of 2024-03-14, while for a viewer on UTC it is the cell of
2024-03-15. -/
theorem timestamp_lands_on_previous_day_west_of_utc :
    (processedData refBuiltins
        [.obj [("Date", .str "2024-03-15T10:00:00Z"), ("Total Mileage", .num (.fin 4))]]).map
      Record.toDatum = [{ date := "2024-03-15", value := some 4 }] ∧
    dateKey refBuiltins (-300) { date := "2024-03-15", value := some 4 } = "2024-03-14" ∧
    ((createHeatmap refBuiltins (-300) 2024 [{ date := "2024-03-15", value := some 4 }]).filter
        (fun c => c.record.isSome)).map (fun c => (c.datum, c.record.bind (fun r => r.value))) =
      [("2024-03-14", some 4)] ∧
    ((createHeatmap refBuiltins 0 2024 [{ date := "2024-03-15", value := some 4 }]).filter
        (fun c => c.record.isSome)).map (fun c => (c.datum, c.record.bind (fun r => r.value))) =
      [("2024-03-15", some 4)] := by
  refine ⟨by decide, by decide, ?_, ?_⟩
  · rw [createHeatmap, heatmapDays_eq 2024 (by decide)]
    decide!
  · rw [createHeatmap, heatmapDays_eq 2024 (by decide)]
    decide!

/-! ## Binary64 rounding -/

theorem roundHalfEven_intCast (n : Int) : roundHalfEven (n : ℚ) = n := by
  simp [roundHalfEven]

theorem roundHalfEven_mono {t u : ℚ} (h : t ≤ u) : roundHalfEven t ≤ roundHalfEven u := by
  have hf : ⌊t⌋ ≤ ⌊u⌋ := Int.floor_mono h
  have ht0 : (⌊t⌋ : ℚ) ≤ t := Int.floor_le t
  have hu0 : (⌊u⌋ : ℚ) ≤ u := Int.floor_le u
  unfold roundHalfEven
  simp only
  rcases hf.lt_or_eq with hlt | heq
  · split_ifs <;> omega
  · have hc : (⌊t⌋ : ℚ) = (⌊u⌋ : ℚ) := by rw [heq]
    split_ifs <;> first | omega | (exfalso; linarith)

theorem fl64Pos_pow (a e : Int) (h : e ≤ a) :
    (roundHalfEven ((2 : ℚ) ^ a / (2 : ℚ) ^ e) : ℚ) * (2 : ℚ) ^ e = (2 : ℚ) ^ a := by
  have h2 : (2 : ℚ) ≠ 0 := by norm_num
  have e1 : (2 : ℚ) ^ a / (2 : ℚ) ^ e = (((2 : Int) ^ (a - e).toNat : Int) : ℚ) := by
    rw [← zpow_sub₀ h2]
    push_cast
    rw [← zpow_natCast, Int.toNat_of_nonneg (by omega)]
  rw [e1, roundHalfEven_intCast, ← e1, div_mul_cancel₀]
  exact zpow_ne_zero _ h2

theorem fl64Pos_mono {x y : ℚ} (hx : 0 < x) (h : x ≤ y) : fl64Pos x ≤ fl64Pos y := by
  have hy : 0 < y := lt_of_lt_of_le hx h
  have hlog : Int.log 2 x ≤ Int.log 2 y := Int.log_mono_right hx h
  have hpos : ∀ e : Int, (0 : ℚ) < (2 : ℚ) ^ e := fun e => zpow_pos (by norm_num) e
  have hxl : x < (2 : ℚ) ^ (Int.log 2 x + 1) := by
    simpa using Int.lt_zpow_succ_log_self (R := ℚ) (b := 2) (by norm_num) x
  have hyl : (2 : ℚ) ^ (Int.log 2 y) ≤ y := by
    simpa using Int.zpow_log_le_self (R := ℚ) (b := 2) (by norm_num) hy
  unfold fl64Pos
  simp only
  rcases (max_le_max (sub_le_sub_right hlog 52) (le_refl (-1074 : Int))).lt_or_eq with hlt | heq
  · -- different binades: the power of two `2 ^ log y` separates the two results
    have hey : max (Int.log 2 y - 52) (-1074) = Int.log 2 y - 52 := by omega
    have hxy : Int.log 2 x + 1 ≤ Int.log 2 y := by omega
    have hxg : x ≤ (2 : ℚ) ^ (Int.log 2 y) :=
      le_trans hxl.le (zpow_le_zpow_right₀ (by norm_num) hxy)
    calc (roundHalfEven (x / (2 : ℚ) ^ max (Int.log 2 x - 52) (-1074)) : ℚ)
          * (2 : ℚ) ^ max (Int.log 2 x - 52) (-1074)
        ≤ (roundHalfEven ((2 : ℚ) ^ (Int.log 2 y) / (2 : ℚ) ^ max (Int.log 2 x - 52) (-1074)) : ℚ)
          * (2 : ℚ) ^ max (Int.log 2 x - 52) (-1074) := by
          apply mul_le_mul_of_nonneg_right _ (hpos _).le
          exact_mod_cast roundHalfEven_mono (div_le_div_of_nonneg_right hxg (hpos _).le)
      _ = (2 : ℚ) ^ (Int.log 2 y) := fl64Pos_pow _ _ (by omega)
      _ = (roundHalfEven ((2 : ℚ) ^ (Int.log 2 y) / (2 : ℚ) ^ max (Int.log 2 y - 52) (-1074)) : ℚ)
          * (2 : ℚ) ^ max (Int.log 2 y - 52) (-1074) := (fl64Pos_pow _ _ (by omega)).symm
      _ ≤ (roundHalfEven (y / (2 : ℚ) ^ max (Int.log 2 y - 52) (-1074)) : ℚ)
          * (2 : ℚ) ^ max (Int.log 2 y - 52) (-1074) := by
          apply mul_le_mul_of_nonneg_right _ (hpos _).le
          exact_mod_cast roundHalfEven_mono (div_le_div_of_nonneg_right hyl (hpos _).le)
  · rw [heq]
    apply mul_le_mul_of_nonneg_right _ (hpos _).le
    exact_mod_cast roundHalfEven_mono (div_le_div_of_nonneg_right h (hpos _).le)

theorem fl64Pos_nonneg {x : ℚ} (hx : 0 < x) : 0 ≤ fl64Pos x := by
  have hpos : ∀ e : Int, (0 : ℚ) < (2 : ℚ) ^ e := fun e => zpow_pos (by norm_num) e
  unfold fl64Pos
  simp only
  apply mul_nonneg _ (hpos _).le
  have h0 : roundHalfEven ((0 : Int) : ℚ) ≤
      roundHalfEven (x / (2 : ℚ) ^ max (Int.log 2 x - 52) (-1074)) :=
    roundHalfEven_mono (by simpa using (div_pos hx (hpos _)).le)
  rw [roundHalfEven_intCast] at h0
  exact_mod_cast h0

theorem fl64_zero : fl64 0 = 0 := by
  simp [fl64]

theorem fl64_mono {x y : ℚ} (h : x ≤ y) : fl64 x ≤ fl64 y := by
  unfold fl64
  by_cases hx : 0 < x
  · have hy : 0 < y := lt_of_lt_of_le hx h
    simp only [hx, hy, if_true]
    exact fl64Pos_mono hx h
  · by_cases hy : 0 < y
    · simp only [hx, hy, if_true, if_false]
      split_ifs with hx2
      · have := fl64Pos_nonneg (neg_pos.mpr hx2)
        have := fl64Pos_nonneg hy
        linarith
      · exact fl64Pos_nonneg hy
    · simp only [hx, hy, if_false]
      by_cases hy2 : y < 0
      · have hx2 : x < 0 := lt_of_le_of_lt h hy2
        simp only [hx2, hy2, if_true]
        exact neg_le_neg (fl64Pos_mono (neg_pos.mpr hy2) (neg_le_neg h))
      · simp only [hy2, if_false]
        split_ifs with hx2
        · have := fl64Pos_nonneg (neg_pos.mpr hx2)
          linarith
        · exact le_refl _

theorem fl64Pos_scaled_int (m : Int) (e e' : Int) (h : e' ≤ e) :
    (roundHalfEven ((m : ℚ) * (2 : ℚ) ^ e / (2 : ℚ) ^ e') : ℚ) * (2 : ℚ) ^ e' =
      (m : ℚ) * (2 : ℚ) ^ e := by
  have h2 : (2 : ℚ) ≠ 0 := by norm_num
  have e1 : (m : ℚ) * (2 : ℚ) ^ e / (2 : ℚ) ^ e' = ((m * (2 : Int) ^ (e - e').toNat : Int) : ℚ) := by
    rw [mul_div_assoc, ← zpow_sub₀ h2]
    push_cast
    rw [← zpow_natCast, Int.toNat_of_nonneg (by omega)]
  rw [e1, roundHalfEven_intCast, ← e1, div_mul_cancel₀]
  exact zpow_ne_zero _ h2

theorem fl64Pos_fix {q : ℚ} (hv : 0 < fl64Pos q) : fl64Pos (fl64Pos q) = fl64Pos q := by
  have hpos : ∀ e : Int, (0 : ℚ) < (2 : ℚ) ^ e := fun e => zpow_pos (by norm_num) e
  have hql : q < (2 : ℚ) ^ (Int.log 2 q + 1) := by
    simpa using Int.lt_zpow_succ_log_self (R := ℚ) (b := 2) (by norm_num) q
  have hvl : (2 : ℚ) ^ (Int.log 2 (fl64Pos q)) ≤ fl64Pos q := by
    simpa using Int.zpow_log_le_self (R := ℚ) (b := 2) (by norm_num) hv
  obtain ⟨e, he⟩ : ∃ e : Int, e = max (Int.log 2 q - 52) (-1074) := ⟨_, rfl⟩
  obtain ⟨m, hm⟩ : ∃ m : Int, m = roundHalfEven (q / (2 : ℚ) ^ e) := ⟨_, rfl⟩
  have hvm : fl64Pos q = (m : ℚ) * (2 : ℚ) ^ e := by
    rw [hm, he]
    rfl
  -- the result does not exceed the next power of two
  have hle : fl64Pos q ≤ (2 : ℚ) ^ (e + 53) := by
    have hqh : q ≤ (2 : ℚ) ^ (e + 53) :=
      le_trans hql.le (zpow_le_zpow_right₀ (by norm_num) (by omega))
    rw [hvm, hm, ← fl64Pos_pow (e + 53) e (by omega)]
    apply mul_le_mul_of_nonneg_right _ (hpos _).le
    exact_mod_cast roundHalfEven_mono (div_le_div_of_nonneg_right hqh (hpos _).le)
  by_cases hcase : max (Int.log 2 (fl64Pos q) - 52) (-1074) ≤ e
  · have := fl64Pos_scaled_int m e _ hcase
    rw [← hvm] at this
    exact this
  · have hlogv : e + 53 ≤ Int.log 2 (fl64Pos q) := by omega
    have hge : (2 : ℚ) ^ (e + 53) ≤ fl64Pos q :=
      le_trans (zpow_le_zpow_right₀ (by norm_num) hlogv) hvl
    have hveq : fl64Pos q = (2 : ℚ) ^ (e + 53) := le_antisymm hle hge
    have hlog : Int.log 2 (fl64Pos q) = e + 53 := by
      rw [hveq]
      simpa using Int.log_zpow (R := ℚ) (b := 2) (by norm_num) (e + 53)
    have := fl64Pos_pow (e + 53) (max (Int.log 2 (fl64Pos q) - 52) (-1074)) (by rw [hlog]; omega)
    rw [← hveq] at this
    exact this

/-- Rounding is idempotent: a binary64 value rounds to itself. -/
theorem fl64_idem (q : ℚ) : fl64 (fl64 q) = fl64 q := by
  by_cases hq : 0 < q
  · have hv := fl64Pos_nonneg hq
    have e1 : fl64 q = fl64Pos q := by simp [fl64, hq]
    rw [e1]
    rcases hv.lt_or_eq with hlt | heq
    · simp only [fl64, hlt, if_true]
      exact fl64Pos_fix hlt
    · rw [← heq]
      exact fl64_zero
  · by_cases hq2 : q < 0
    · have hv := fl64Pos_nonneg (neg_pos.mpr hq2)
      have e1 : fl64 q = -fl64Pos (-q) := by simp [fl64, hq, hq2]
      rw [e1]
      rcases hv.lt_or_eq with hlt | heq
      · have hn : ¬ (0 < -fl64Pos (-q)) := by linarith
        have hn2 : -fl64Pos (-q) < 0 := by linarith
        simp only [fl64, hn, hn2, if_true, if_false, neg_neg]
        rw [fl64Pos_fix hlt]
      · rw [← heq]
        simp [fl64_zero]
    · have e1 : fl64 q = 0 := by simp [fl64, hq, hq2]
      rw [e1, fl64_zero]

/-! ## The colour scale -/

theorem quantileSorted_pair (a b p : ℚ) (h0 : 0 < p) (h1 : p < 1) (hp : fl64 p = p) :
    quantileSorted [a, b] p = some (fl64 (a + fl64 (fl64 (b - a) * p))) := by
  have hf : ⌊p⌋ = 0 := by
    rw [Int.floor_eq_iff]
    constructor
    · simpa using h0.le
    · simpa using h1
  have e : ((2 : ℚ) - 1) * p = p := by ring
  simp [quantileSorted, not_le.mpr h0, not_le.mpr h1, e, hf, hp]

theorem sorted_domain (m : ℚ) :
    List.insertionSort (fun a b : ℚ => a ≤ b) [0, m] = [min 0 m, max 0 m] := by
  by_cases h : 0 ≤ m
  · simp [List.insertionSort, List.orderedInsert, h]
  · have h2 : m ≤ 0 := le_of_not_le h
    simp [List.insertionSort, List.orderedInsert, h, h2]

theorem fifth_bounds :
    (0 < fl64 (1 / 5) ∧ fl64 (1 / 5) < 1) ∧ (0 < fl64 (2 / 5) ∧ fl64 (2 / 5) < 1) ∧
      (0 < fl64 (3 / 5) ∧ fl64 (3 / 5) < 1) ∧ (0 < fl64 (4 / 5) ∧ fl64 (4 / 5) < 1) := by
  decide!

theorem colorScale_thresholds (data : List Datum) :
    (colorScale data).thresholds =
      [some (cutPoint data 1), some (cutPoint data 2), some (cutPoint data 3),
        some (cutPoint data 4)] := by
  obtain ⟨⟨a1, b1⟩, ⟨a2, b2⟩, ⟨a3, b3⟩, ⟨a4, b4⟩⟩ := fifth_bounds
  have hr : List.range 4 = [0, 1, 2, 3] := by decide
  have q1 : (((0 : Nat) : ℚ) + 1) / ((5 : Nat) : ℚ) = 1 / 5 := by norm_num
  have q2 : (((1 : Nat) : ℚ) + 1) / ((5 : Nat) : ℚ) = 2 / 5 := by norm_num
  have q3 : (((2 : Nat) : ℚ) + 1) / ((5 : Nat) : ℚ) = 3 / 5 := by norm_num
  have q4 : (((3 : Nat) : ℚ) + 1) / ((5 : Nat) : ℚ) = 4 / 5 := by norm_num
  have c1 : (((1 : Nat) : ℚ)) / 5 = 1 / 5 := by norm_num
  have c2 : (((2 : Nat) : ℚ)) / 5 = 2 / 5 := by norm_num
  have c3 : (((3 : Nat) : ℚ)) / 5 = 3 / 5 := by norm_num
  have c4 : (((4 : Nat) : ℚ)) / 5 = 4 / 5 := by norm_num
  have hn : max 1 colorRange.length = 5 := by decide
  simp only [colorScale, scaleQuantile, sorted_domain, hn, Nat.add_one_sub_one, hr,
    List.map_cons, List.map_nil, q1, q2, q3, q4, cutPoint, domainLo, domainHi, c1, c2, c3, c4]
  rw [quantileSorted_pair _ _ _ a1 b1 (fl64_idem _),
    quantileSorted_pair _ _ _ a2 b2 (fl64_idem _),
    quantileSorted_pair _ _ _ a3 b3 (fl64_idem _),
    quantileSorted_pair _ _ _ a4 b4 (fl64_idem _)]

theorem bisectRight_four (t1 t2 t3 t4 v : ℚ) (h12 : t1 ≤ t2) (h23 : t2 ≤ t3) (h34 : t3 ≤ t4) :
    bisectRight [some t1, some t2, some t3, some t4] v =
      (if t1 ≤ v then 1 else 0) + (if t2 ≤ v then 1 else 0) + (if t3 ≤ v then 1 else 0)
        + (if t4 ≤ v then 1 else 0) := by
  have e34 : bisectLoop [some t1, some t2, some t3, some t4] v 3 4 = if t4 ≤ v then 4 else 3 := by
    rw [bisectLoop]
    simp [ascendingLe]
  have e01 : bisectLoop [some t1, some t2, some t3, some t4] v 0 1 = if t1 ≤ v then 1 else 0 := by
    rw [bisectLoop]
    simp [ascendingLe]
  have e02 : bisectLoop [some t1, some t2, some t3, some t4] v 0 2 =
      if t2 ≤ v then 2 else bisectLoop [some t1, some t2, some t3, some t4] v 0 1 := by
    rw [bisectLoop]
    simp [ascendingLe]
  have e04 : bisectLoop [some t1, some t2, some t3, some t4] v 0 4 =
      if t3 ≤ v then bisectLoop [some t1, some t2, some t3, some t4] v 3 4
      else bisectLoop [some t1, some t2, some t3, some t4] v 0 2 := by
    rw [bisectLoop]
    simp [ascendingLe]
  unfold bisectRight
  simp only [List.length_cons, List.length_nil, Nat.zero_add, Nat.reduceAdd, Nat.lt_add_one,
    Nat.zero_lt_succ, if_true]
  rw [e04, e34, e02, e01]
  by_cases c3 : t3 ≤ v
  · have c2 : t2 ≤ v := le_trans h23 c3
    have c1 : t1 ≤ v := le_trans h12 c2
    by_cases c4 : t4 ≤ v <;> simp [c1, c2, c3, c4]
  · have c4 : ¬ t4 ≤ v := fun h => c3 (le_trans h34 h)
    by_cases c2 : t2 ≤ v
    · have c1 : t1 ≤ v := le_trans h12 c2
      simp [c1, c2, c3, c4]
    · by_cases c1 : t1 ≤ v <;> simp [c1, c2, c3, c4]

theorem cutPoint_mono (data : List Datum) (j k : Nat) (h : j ≤ k) :
    cutPoint data j ≤ cutPoint data k := by
  have hw : 0 ≤ fl64 (domainHi data - domainLo data) := by
    have hd : 0 ≤ domainHi data - domainLo data := by
      unfold domainHi domainLo
      have h1 := min_le_left (0 : ℚ) (orOne (d3max (data.map (fun d => d.value))))
      have h2 := le_max_left (0 : ℚ) (orOne (d3max (data.map (fun d => d.value))))
      linarith
    have := fl64_mono hd
    rwa [fl64_zero] at this
  have hjk : fl64 ((j : ℚ) / 5) ≤ fl64 ((k : ℚ) / 5) := by
    apply fl64_mono
    have : (j : ℚ) ≤ (k : ℚ) := by exact_mod_cast h
    linarith
  unfold cutPoint
  apply fl64_mono
  have := fl64_mono (mul_le_mul_of_nonneg_left hjk hw)
  linarith

theorem colorScale_index (data : List Datum) (v : ℚ) :
    (colorScale data).index v =
      (if cutPoint data 1 ≤ v then 1 else 0) + (if cutPoint data 2 ≤ v then 1 else 0)
        + (if cutPoint data 3 ≤ v then 1 else 0) + (if cutPoint data 4 ≤ v then 1 else 0) := by
  unfold QuantileScale.index
  rw [colorScale_thresholds]
  exact bisectRight_four _ _ _ _ v (cutPoint_mono data 1 2 (by decide))
    (cutPoint_mono data 2 3 (by decide)) (cutPoint_mono data 3 4 (by decide))

/-- C1 as stated fails: of the five values 1, 1, 1, 1, 10 the scale gives four to its
first colour, none to the next three and one to the last, while equal-count quantiles
would give each colour ⌈5/5⌉ = ⌊5/5⌋ = 1 value. -/
theorem colorScale_buckets_not_equal_count :
    (recordValues fiveRuns).length = 5 ∧
    (List.range 5).map (bucketSize fiveRuns) = [4, 0, 0, 0, 1] ∧
    ¬ (∀ c < 5, bucketSize fiveRuns c = (5 + 4) / 5 ∨ bucketSize fiveRuns c = 5 / 5) := by
  have hr : List.range 5 = [0, 1, 2, 3, 4] := by decide
  have hb : (List.range 5).map (bucketSize fiveRuns) = [4, 0, 0, 0, 1] := by
    rw [hr]
    simp only [List.map_cons, List.map_nil, bucketSize, colorScale_index]
    decide!
  refine ⟨by decide, hb, ?_⟩
  intro h
  have h0 := h 0 (by decide)
  have e0 : bucketSize fiveRuns 0 = 4 := by
    have := congrArg (fun l => l.head?) hb
    simpa [hr] using this
  rw [e0] at h0
  revert h0
  decide

/-- C1 (amended): for every list of records the four thresholds of the colour scale are
the binary64 evaluations of `lo + (hi - lo) * (k / 5)`, k = 1..4, over the sorted
two-point domain `[lo, hi]` made of 0 and the largest value (1 when there is no value or
the largest is 0); they are non-decreasing, and a value gets the colour whose index is the
number of thresholds less than or equal to it.  For a positive largest value `m` the
thresholds are the doubles `m * (k / 5)`: the five colours cover the equal-width fifths
of `[0, m]`, up to the rounding of the cut points, whatever number of values falls in
each. -/
theorem colorScale_equal_width (data : List Datum) (v : ℚ) :
    (colorScale data).thresholds =
      [some (cutPoint data 1), some (cutPoint data 2), some (cutPoint data 3),
        some (cutPoint data 4)] ∧
    (∀ j k : Nat, j ≤ k → cutPoint data j ≤ cutPoint data k) ∧
    (colorScale data).index v =
      ((List.range 4).filter (fun k : Nat => decide (cutPoint data (k + 1) ≤ v))).length ∧
    (colorScale data).apply (some v) = colorRange.get?
      ((List.range 4).filter (fun k : Nat => decide (cutPoint data (k + 1) ≤ v))).length ∧
    ((d3max (data.map (fun d => d.value)) = none ∨
        d3max (data.map (fun d => d.value)) = some 0) →
      domainLo data = 0 ∧ domainHi data = 1 ∧
        ∀ k : Nat, cutPoint data k = fl64 ((k : ℚ) / 5)) ∧
    (∀ m : ℚ, d3max (data.map (fun d => d.value)) = some m → 0 < m → fl64 m = m →
      domainLo data = 0 ∧ domainHi data = m ∧
        ∀ k : Nat, cutPoint data k = fl64 (m * fl64 ((k : ℚ) / 5))) ∧
    (∀ m : ℚ, d3max (data.map (fun d => d.value)) = some m → m < 0 →
      domainLo data = m ∧ domainHi data = 0) := by
  have hr : List.range 4 = [0, 1, 2, 3] := by decide
  have hidx : (colorScale data).index v =
      ((List.range 4).filter (fun k : Nat => decide (cutPoint data (k + 1) ≤ v))).length := by
    rw [colorScale_index, hr]
    simp only [List.filter_cons, List.filter_nil, Nat.zero_add, Nat.reduceAdd]
    by_cases c1 : cutPoint data 1 ≤ v <;> by_cases c2 : cutPoint data 2 ≤ v <;>
      by_cases c3 : cutPoint data 3 ≤ v <;> by_cases c4 : cutPoint data 4 ≤ v <;>
      simp [c1, c2, c3, c4]
  have hone : ∀ k : Nat, fl64 ((0 : ℚ) + fl64 (fl64 ((1 : ℚ) - 0) * fl64 ((k : ℚ) / 5))) =
      fl64 ((k : ℚ) / 5) := by
    intro k
    have h1 : fl64 ((1 : ℚ) - 0) = 1 := by decide!
    rw [h1, one_mul, zero_add, fl64_idem, fl64_idem]
  refine ⟨colorScale_thresholds data, cutPoint_mono data, hidx, ?_, ?_, ?_, ?_⟩
  · have hrange : (colorScale data).range = colorRange := rfl
    simp only [QuantileScale.apply, hrange, hidx]
  · intro h
    have ho : orOne (d3max (data.map (fun d => d.value))) = 1 := by
      rcases h with h | h <;> simp [h, orOne]
    have hlo : domainLo data = 0 := by simp [domainLo, ho]
    have hhi : domainHi data = 1 := by simp [domainHi, ho]
    refine ⟨hlo, hhi, fun k => ?_⟩
    unfold cutPoint
    rw [hlo, hhi]
    exact hone k
  · intro m hm hpos hfix
    have hne : m ≠ 0 := ne_of_gt hpos
    have ho : orOne (d3max (data.map (fun d => d.value))) = m := by simp [hm, orOne, hne]
    have hlo : domainLo data = 0 := by simp [domainLo, ho, hpos.le]
    have hhi : domainHi data = m := by simp [domainHi, ho, hpos.le]
    refine ⟨hlo, hhi, fun k => ?_⟩
    unfold cutPoint
    rw [hlo, hhi, sub_zero, hfix, zero_add, fl64_idem]
  · intro m hm hneg
    have hne : m ≠ 0 := ne_of_lt hneg
    have ho : orOne (d3max (data.map (fun d => d.value))) = m := by simp [hm, orOne, hne]
    exact ⟨by simp [domainLo, ho, hneg.le], by simp [domainHi, ho, hneg.le]⟩

/-- Witness of C1 (amended): with a 3-mile and a 0.6-mile run the first threshold is the
double `3 * 0.2 = 0.6000000000000001`, above the double 0.6, so the short run gets the
first colour; with no record the thresholds are the doubles 0.2, 0.4, 0.6 and 0.8. -/
theorem colorScale_equal_width_witness :
    d3max (shortAndLong.map (fun d => d.value)) = some 3 ∧ (0 : ℚ) < 3 ∧ fl64 3 = 3 ∧
      cutPoint shortAndLong 1 = fl64 (3 * fl64 (((1 : Nat) : ℚ) / 5)) ∧
      cutPoint shortAndLong 1 = 5404319552844596 / 9007199254740992 ∧
      fl64 (3 / 5) = 5404319552844595 / 9007199254740992 ∧
      (colorScale shortAndLong).index (fl64 (3 / 5)) = 0 ∧
      (d3max (([] : List Datum).map (fun d => d.value)) = none ∧
        cutPoint [] 1 = fl64 (((1 : Nat) : ℚ) / 5)) :=
  ⟨by decide!, by norm_num, by decide!,
    ((colorScale_equal_width shortAndLong 0).2.2.2.2.2.1 3 (by decide!) (by norm_num)
      (by decide!)).2.2 1,
    by decide!, by decide!,
    ((colorScale_equal_width shortAndLong (fl64 (3 / 5))).2.2.1).trans (by decide!),
    by decide!, ((colorScale_equal_width [] 0).2.2.2.2.1 (Or.inl (by decide!))).2.2 1⟩

/-! ## The progress chart -/

theorem elapsedDays_eq (tz year today : Int) (data : List Datum) :
    (createProgressChart tz year today data).elapsedDays =
      (today - localMidnight tz (newDateLocal year 0 1)) / msPerDay := by
  have h : (msPerDay : ℚ) = ((86400000 : ℕ) : ℚ) := by
    norm_num [msPerDay]
  have h2 : msPerDay = ((86400000 : ℕ) : Int) := by
    norm_num [msPerDay]
  simp only [createProgressChart]
  rw [h, Rat.floor_intCast_div_natCast, ← h2]

/-- C6: for every `today` on or after the year start, `elapsedDays` is the floor of the
elapsed time divided by one day, the number of whole days between the year start and
today, and `targetMiles` is `(elapsedDays / 365) * 1000`; for the year start 2024-01-01
and today 2024-07-01 (both at local midnight) `elapsedDays` is 182 and `targetMiles` is
182000/365, printed as 498.63. -/
theorem createProgressChart_target (tz year today : Int) (data : List Datum)
    (h : localMidnight tz (newDateLocal year 0 1) ≤ today) :
    (createProgressChart tz year today data).elapsedDays =
      (today - localMidnight tz (newDateLocal year 0 1)) / msPerDay ∧
    0 ≤ (createProgressChart tz year today data).elapsedDays ∧
    (createProgressChart tz year today data).elapsedDays * msPerDay ≤
      today - localMidnight tz (newDateLocal year 0 1) ∧
    today - localMidnight tz (newDateLocal year 0 1) <
      ((createProgressChart tz year today data).elapsedDays + 1) * msPerDay ∧
    (createProgressChart tz year today data).targetMiles =
      (((createProgressChart tz year today data).elapsedDays : ℚ) / 365) * 1000 ∧
    (year = 2024 → today = localMidnight tz (makeDay 2024 6 1) →
      (createProgressChart tz year today data).elapsedDays = 182 ∧
      (createProgressChart tz year today data).targetMiles = 182000 / 365 ∧
      (createProgressChart tz year today data).targetText = 498.63) := by
  have he := elapsedDays_eq tz year today data
  have hms : msPerDay = 86400000 := by norm_num [msPerDay]
  have htarget : (createProgressChart tz year today data).targetMiles =
      (((createProgressChart tz year today data).elapsedDays : ℚ) / 365) * 1000 := rfl
  have htext : (createProgressChart tz year today data).targetText =
      toFixed2 (createProgressChart tz year today data).targetMiles := rfl
  refine ⟨he, ?_, ?_, ?_, htarget, ?_⟩
  · rw [he, hms]
    omega
  · rw [he, hms]
    omega
  · rw [he, hms]
    omega
  · intro hy ht
    have h182 : (createProgressChart tz year today data).elapsedDays = 182 := by
      rw [he, hy, ht]
      have d1 : makeDay 2024 6 1 = 19905 := by decide
      have d0 : newDateLocal 2024 0 1 = 19723 := by decide
      rw [d1, d0, hms]
      unfold localMidnight
      rw [hms]
      omega
    refine ⟨h182, ?_, ?_⟩
    · rw [htarget, h182]
      norm_num
    · rw [htext, htarget, h182]
      decide!

/-- Witness of C6: year start 2024-01-01 and today 2024-07-01, both at midnight UTC. -/
theorem createProgressChart_target_witness :
    localMidnight 0 (newDateLocal 2024 0 1) ≤ 1719792000000 ∧
      (1719792000000 : Int) = localMidnight 0 (makeDay 2024 6 1) ∧
      (createProgressChart 0 2024 1719792000000 []).elapsedDays = 182 ∧
      (createProgressChart 0 2024 1719792000000 []).targetMiles = 182000 / 365 ∧
      (createProgressChart 0 2024 1719792000000 []).targetText = 498.63 :=
  ⟨by decide, by decide,
    (createProgressChart_target 0 2024 1719792000000 [] (by decide)).2.2.2.2.2 rfl (by decide)⟩

end RunTracker
